import Mathlib

/-!
Verification of the Tornaris companion-app game engine (`app.js`).

The engine is shallowly embedded: each JavaScript function of the core
(deck builders, game-progression state machine, duel resolver, tournament
bracket builder and propagation engine) is translated to an executable Lean
definition, keeping the source's names.  Randomness (`shuffle`) is modelled
as an explicit function parameter `sh`; theorems that depend on it assume
only that it returns a permutation of its input, matching the uniform
in-place permutation of the source.  The immutable reference catalogs
(`DAY_EVENTS`, `NIGHT_EVENTS`, `MONSTERS`, `CHARACTERS` from `data.js`) are
modelled as list parameters, so every theorem quantifies over catalogs.
-/

namespace Tornaris

/-- `'day' | 'night'` — the time-of-day tag on event-deck entries. -/
inductive TimeOfDay where
  | day
  | night
deriving DecidableEq, Repr

/-- One entry of the combined event deck: `{type: 'day'|'night', eventId}`. -/
structure EventEntry where
  type : TimeOfDay
  eventId : Nat
deriving DecidableEq, Repr

/-- One record of the `DAY_EVENTS` / `NIGHT_EVENTS` catalogs: an id, a display
name (used by `advanceTime` to recognise 'Mazmorra Cerrada') and a repetition
count. -/
structure EventSpec where
  id : Nat
  name : String
  count : Nat
deriving DecidableEq, Repr

/-- A monster's `hp` field: `null` (the special sentinel), a string `"k×"`
multiplier (JavaScript's `parseInt("3x") = 3` is modelled by carrying the
parsed factor), or a literal number. -/
inductive HPSpec where
  | special
  | mult (k : Nat)
  | lit (n : Nat)
deriving DecidableEq, Repr

/-- One record of the `MONSTERS` catalog. -/
structure MonsterSpec where
  id : Nat
  tier : String
  hp : HPSpec
deriving DecidableEq, Repr

/-- One record of the `CHARACTERS` catalog (only the fields the engine reads). -/
structure CharSpec where
  id : String
  maxMana : Nat
deriving DecidableEq, Repr

/-- A player: identity, class reference and tracked resources. -/
structure Player where
  id : Nat
  name : String
  characterId : String
  gold : Nat
  mana : Nat
  maxMana : Nat
  equipment : List Nat
deriving DecidableEq, Repr

/-- The `state.game` sub-object: event deck + cursor, derived day counter and
time-of-day, monster deck + cursor, the per-day monster-resolved flag and the
pending one-shot notification queue. -/
structure Game where
  eventDeck : List EventEntry
  eventIndex : Nat
  currentDay : Nat
  timeOfDay : TimeOfDay
  monsterDeck : List Nat
  monsterDeckIndex : Nat
  monsterDefeated : Bool
  pendingNotifications : List String
deriving DecidableEq, Repr

/-- `CHARACTERS.find(c => c.id === id) || null`. -/
def getChar (chars : List CharSpec) (id : String) : Option CharSpec :=
  chars.find? (fun c => c.id == id)

/-- `MONSTERS.find(m => m.id === id) || null`. -/
def getMonster (monsters : List MonsterSpec) (id : Nat) : Option MonsterSpec :=
  monsters.find? (fun m => m.id == id)

/-- `computeHP(monster, playerCount, isLegendary)`: `null` hp stays `null`
(the special marker, modelled as `none`); a `"k×"` spec multiplies by the
player count; otherwise the literal value; a final doubling when the active
event is the Legendary Monster event. -/
def computeHP (hp : HPSpec) (playerCount : Nat) (isLegendary : Bool) : Option Nat :=
  match hp with
  | .special => none
  | .mult k =>
    let base := k * playerCount
    some (if isLegendary then base * 2 else base)
  | .lit n =>
    let base := n
    some (if isLegendary then base * 2 else base)

/-- `computeHPDisplay`: the `null` result renders as the string `'Especial'`. -/
def computeHPDisplay (hp : HPSpec) (playerCount : Nat) (isLegendary : Bool) :
    String ⊕ Nat :=
  match computeHP hp playerCount isLegendary with
  | none => Sum.inl "Especial"
  | some v => Sum.inr v

-- ─── Deck builders ────────────────────────────────────────

/-- The four fixed monster tiers, weakest → strongest. -/
def tierNames : List String := ["duende", "ogro", "golem", "dragon"]

/-- `MONSTERS.filter(m => m.tier === tier).map(m => m.id)`. -/
def tierIds (monsters : List MonsterSpec) (tier : String) : List Nat :=
  (monsters.filter (fun m => m.tier == tier)).map (fun m => m.id)

/-- `buildMonsterDeck()`: for each tier in the fixed order, shuffle that
tier's catalog ids and keep the first 3, concatenating tier groups. -/
def buildMonsterDeck (sh : List Nat → List Nat) (monsters : List MonsterSpec) :
    List Nat :=
  tierNames.foldl (fun deck tier => deck ++ (sh (tierIds monsters tier)).take 3) []

/-- Expansion of one event catalog into tagged deck entries, each event
replicated `count` times (the two nested `for` loops of
`buildCombinedEventDeck`). -/
def expandEvents (kind : TimeOfDay) : List EventSpec → List EventEntry
  | [] => []
  | ev :: evs => List.replicate ev.count ⟨kind, ev.id⟩ ++ expandEvents kind evs

/-- The combined day+night expansion that gets shuffled. -/
def eventDeckBase (dayEvents nightEvents : List EventSpec) : List EventEntry :=
  expandEvents .day dayEvents ++ expandEvents .night nightEvents

/-- `c => c.type === 'day' && c.eventId === 1` — the Normal Day card test. -/
def isNormalDayCard (c : EventEntry) : Bool :=
  c.type == TimeOfDay.day && c.eventId == 1

/-- The canonical Normal Day entry. -/
def normalDayCard : EventEntry := ⟨TimeOfDay.day, 1⟩

/-- `buildCombinedEventDeck()`: expand both catalogs, shuffle once, then move
the first Normal Day card to the front (splice + unshift) or synthesise one at
the front if absent. -/
def buildCombinedEventDeck (sh : List EventEntry → List EventEntry)
    (dayEvents nightEvents : List EventSpec) : List EventEntry :=
  let deck := sh (eventDeckBase dayEvents nightEvents)
  match deck.findIdx? isNormalDayCard with
  | some i => if 0 < i then deck.getD i normalDayCard :: deck.eraseIdx i else deck
  | none => normalDayCard :: deck

/-- Sum of the configured repetition counts of a catalog. -/
def sumCounts (evs : List EventSpec) : Nat :=
  (evs.map (fun ev => ev.count)).sum

-- ─── Game start ───────────────────────────────────────────

/-- `const char = getChar(p.characterId); const maxMana = char ? char.maxMana : 4`. -/
def classMaxMana (chars : List CharSpec) (characterId : String) : Nat :=
  match getChar chars characterId with
  | some c => c.maxMana
  | none => 4

/-- The player-initialisation map of `startGame`:
`players.map((p, i) => ({...p, id: i, gold: 0, mana: maxMana, maxMana, equipment: []}))`
with `maxMana` read from the player's character class (default 4). -/
def initPlayers (chars : List CharSpec) : Nat → List Player → List Player
  | _, [] => []
  | i, p :: ps =>
    let maxMana := classMaxMana chars p.characterId
    { p with id := i, gold := 0, mana := maxMana, maxMana := maxMana,
             equipment := [] } :: initPlayers chars (i + 1) ps

/-- `startGame()`: initialise all players and build a fresh `state.game` from
the combined event deck (first card drawn: day ⇒ `currentDay = 1`) and the
monster deck. -/
def startGame (shE : List EventEntry → List EventEntry) (shM : List Nat → List Nat)
    (chars : List CharSpec) (dayEvents nightEvents : List EventSpec)
    (monsters : List MonsterSpec) (players : List Player) :
    List Player × Game :=
  let players' := initPlayers chars 0 players
  let eventDeck := buildCombinedEventDeck shE dayEvents nightEvents
  let firstEvent := eventDeck.head?
  let isDay := match firstEvent with
    | some e => e.type == TimeOfDay.day
    | none => false
  (players',
   { eventDeck := eventDeck
     eventIndex := 0
     currentDay := if isDay then 1 else 0
     timeOfDay := match firstEvent with
       | some e => e.type
       | none => TimeOfDay.day
     monsterDeck := buildMonsterDeck shM monsters
     monsterDeckIndex := 0
     monsterDefeated := false
     pendingNotifications := [] })

-- ─── Tournament data model ────────────────────────────────

/-- A tournament seed: `{playerId, seedRank}` (`seedRank = null` until rolled). -/
structure Seed where
  playerId : Nat
  seedRank : Option Nat
deriving DecidableEq, Repr

/-- A feed link: `{matchId, slot}` — which match's winner fills this slot. -/
structure Feed where
  matchId : String
  slot : Nat
deriving DecidableEq, Repr

/-- A bracket match: two competitor slots, the fixed advantage marker, the
recorded winner, and one feed link per slot (`feedsFrom[0]` / `feedsFrom[1]`). -/
structure Match where
  id : String
  player1Id : Option Nat
  player2Id : Option Nat
  advantagePlayerId : Option Nat
  winnerId : Option Nat
  feedsFrom1 : Option Feed
  feedsFrom2 : Option Feed
deriving DecidableEq, Repr

/-- A named group of matches at one bracket depth. -/
structure Round where
  name : String
  matchList : List Match
deriving DecidableEq, Repr

/-- The `state.tournament` sub-object. -/
structure Tournament where
  phase : String
  seeds : List Seed
  rounds : List Round
  championId : Option Nat
deriving DecidableEq, Repr

/-- The fresh tournament object installed when the progression machine hands
over: `{phase:'pre', seeds: players.map(p => ({playerId: p.id, seedRank: null})),
rounds: [], championId: null}`. -/
def freshTournament (players : List Player) : Tournament :=
  { phase := "pre"
    seeds := players.map (fun p => { playerId := p.id, seedRank := none })
    rounds := []
    championId := none }

-- ─── Game progression: advanceTime ────────────────────────

/-- `currentEvent()`: look up the deck entry at the cursor in the catalog of
its kind; the result carries the entry's kind alongside the catalog record. -/
def currentEvent (dayEvents nightEvents : List EventSpec) (g : Game) :
    Option (TimeOfDay × EventSpec) :=
  match g.eventDeck[g.eventIndex]? with
  | none => none
  | some entry =>
    let events := match entry.type with
      | .day => dayEvents
      | .night => nightEvents
    match events.find? (fun e => e.id == entry.eventId) with
    | some ev => some (entry.type, ev)
    | none => none

/-- The pre-step of `advanceTime`: if the current event is a day event named
'Mazmorra Cerrada' and the monster is unresolved, force-resolve it (mark
resolved and advance the monster-deck cursor). -/
def dungeonClosedStep (dayEvents nightEvents : List EventSpec) (g : Game) : Game :=
  match currentEvent dayEvents nightEvents g with
  | some (TimeOfDay.day, ev) =>
    if ev.name == "Mazmorra Cerrada" && !g.monsterDefeated then
      { g with monsterDefeated := true, monsterDeckIndex := g.monsterDeckIndex + 1 }
    else g
  | _ => g

/-- The outcome of one `advanceTime()` call: either hand over to tournament
setup, or continue in the progression machine with an updated game state. -/
inductive AdvanceResult where
  | toTournament (g : Game) (t : Tournament)
  | next (g : Game)
deriving DecidableEq, Repr

/-- `advanceTime()`: Mazmorra Cerrada auto-skip, then — day counter at 12
during a day ⇒ tournament; else advance the cursor, deck exhausted ⇒
tournament; else mirror the new entry's kind into `timeOfDay` and, on a day
entry, bump `currentDay` and clear `monsterDefeated`. -/
def advanceTime (dayEvents nightEvents : List EventSpec) (players : List Player)
    (g : Game) : AdvanceResult :=
  let g1 := dungeonClosedStep dayEvents nightEvents g
  if g1.currentDay ≥ 12 ∧ g1.timeOfDay = TimeOfDay.day then
    .toTournament g1 (freshTournament players)
  else
    let g2 := { g1 with eventIndex := g1.eventIndex + 1 }
    if g2.eventIndex ≥ g2.eventDeck.length then
      .toTournament g2 (freshTournament players)
    else
      let nextEntry := g2.eventDeck.getD g2.eventIndex normalDayCard
      let g3 := { g2 with timeOfDay := nextEntry.type }
      if nextEntry.type = TimeOfDay.day then
        .next { g3 with currentDay := g3.currentDay + 1, monsterDefeated := false }
      else
        .next g3

/-- The game state produced by the cursor-advancing (`.next`) branch of
`advanceTime`: cursor bumped by one, time-of-day mirroring the new entry's
kind, and on a day entry the day counter bumped and the monster-resolved
flag cleared. -/
def advStep (dayEvents nightEvents : List EventSpec) (g : Game) : Game :=
  let g1 := dungeonClosedStep dayEvents nightEvents g
  let e := g1.eventDeck.getD (g1.eventIndex + 1) normalDayCard
  if e.type = TimeOfDay.day then
    { g1 with eventIndex := g1.eventIndex + 1, timeOfDay := e.type,
              currentDay := g1.currentDay + 1, monsterDefeated := false }
  else
    { g1 with eventIndex := g1.eventIndex + 1, timeOfDay := e.type }

-- ─── Monster combat resolution ────────────────────────────

/-- The `state.monsterCombat` sub-object (the fields `endMonsterCombat`
reads; the per-combatant score UI state is rendering concern only).
`currentHP` is an integer: `recalcMonsterHP` sets it to `maxHP − totalDmg`,
which can go negative. -/
structure MonsterCombat where
  monsterId : Nat
  maxHP : Nat
  currentHP : Int
  isLegendary : Bool
deriving DecidableEq, Repr

/-- The per-position test of `checkTierCompletion`'s scan: does the monster
at deck position `j` belong to the given tier? -/
def monsterAtHasTier (monsters : List MonsterSpec) (deck : List Nat) (j : Nat)
    (tier : String) : Bool :=
  match getMonster monsters (deck.getD j 0) with
  | some m => m.tier == tier
  | none => false

/-- The tier indices scan of `checkTierCompletion`: every deck position whose
monster has the given tier. -/
def tierIndices (monsters : List MonsterSpec) (deck : List Nat) (tier : String) :
    List Nat :=
  (List.range deck.length).filter (fun i => monsterAtHasTier monsters deck i tier)

/-- The claim-side condition: position `idx` is the last deck position holding
its tier — no later deck position holds a monster of the same tier. -/
def isLastOfTier (monsters : List MonsterSpec) (deck : List Nat) (idx : Nat)
    (tier : String) : Prop :=
  ∀ j, j < deck.length → idx < j → monsterAtHasTier monsters deck j tier = false

instance (monsters : List MonsterSpec) (deck : List Nat) (idx : Nat)
    (tier : String) : Decidable (isLastOfTier monsters deck idx tier) :=
  inferInstanceAs (Decidable (∀ j, j < deck.length → idx < j →
    monsterAtHasTier monsters deck j tier = false))

/-- The tier-completion reward fires on a victory at defeat position `idx`:
the defeated monster's tier occupies that position and `checkTierCompletion`'s
guard (`maxTierIdx < idx + 1`) holds. -/
def grantFires (monsters : List MonsterSpec) (deck : List Nat) (tier : String)
    (idx : Nat) : Prop :=
  monsterAtHasTier monsters deck idx tier = true ∧ idx < deck.length
  ∧ ∃ m, (tierIndices monsters deck tier).max? = some m ∧ m < idx + 1

/-- The per-player tier-completion reward: `p.maxMana++` then
`p.mana = min(p.mana + 1, p.maxMana)` against the new maximum. -/
def rewardPlayer (p : Player) : Player :=
  { p with maxMana := p.maxMana + 1, mana := min (p.mana + 1) (p.maxMana + 1) }

/-- The notification text pushed on tier completion. -/
def tierMsg (tier : String) : String :=
  "¡Tier " ++ tier ++ " completado! +1 maná máximo a todos"

/-- `checkTierCompletion(deck, currentIdx, tier)`: if the cursor has passed
the maximal deck position of the tier (`Math.max` of an empty index list is
`-Infinity` and fails the `maxTierIdx >= 0` guard, modelled by the `none`
branch), enqueue one notification and reward every player. -/
def checkTierCompletion (monsters : List MonsterSpec) (players : List Player)
    (notifs : List String) (deck : List Nat) (currentIdx : Nat) (tier : String) :
    List Player × List String :=
  match (tierIndices monsters deck tier).max? with
  | some maxTierIdx =>
    if maxTierIdx < currentIdx then
      (players.map rewardPlayer, notifs ++ [tierMsg tier])
    else (players, notifs)
  | none => (players, notifs)

/-- `endMonsterCombat()`: on victory (`currentHP <= 0`) mark the monster
resolved, advance the monster-deck cursor and run the tier-completion check
with the defeated monster's tier; on failure only a modal is shown — the
game state and players are untouched. -/
def endMonsterCombat (monsters : List MonsterSpec) (mc : MonsterCombat)
    (g : Game) (players : List Player) : Game × List Player :=
  let defeated := mc.currentHP ≤ 0
  if defeated then
    let tier := match getMonster monsters mc.monsterId with
      | some m => some m.tier
      | none => none
    let g1 := { g with monsterDefeated := true,
                       monsterDeckIndex := g.monsterDeckIndex + 1 }
    match tier with
    | some t =>
      let (players', notifs') :=
        checkTierCompletion monsters players g1.pendingNotifications
          g1.monsterDeck g1.monsterDeckIndex t
      ({ g1 with pendingNotifications := notifs' }, players')
    | none => (g1, players)
  else (g, players)

-- ─── Duel resolver ────────────────────────────────────────

/-- The `state.duel` sub-object. -/
structure Duel where
  player1Id : Option Nat
  player2Id : Option Nat
  score1 : Nat
  score2 : Nat
  winnerId : Option Nat
  matchId : Option String
deriving DecidableEq, Repr

/-- The observable outcome of `declareWinner`: the tie modal (no winner) or a
declared winner id. -/
inductive DuelOutcome where
  | tie
  | declared (winnerId : Option Nat)
deriving DecidableEq, Repr

/-- `state.players.find(p => p.id === pid)` for a nullable id. -/
def findPlayer (players : List Player) : Option Nat → Option Player
  | some pid => players.find? (fun p => p.id == pid)
  | none => none

/-- `declareWinner()`: equal scores ⇒ the 'Empate' modal and an early return
(nothing mutated); otherwise the higher score's competitor becomes the duel
winner, with Nyra's conditional gold steal (up to 7, capped at the loser's
balance) when full tracking is on and the user accepts.  The tournament
handoff (`handlePostDuel` → `recordMatchResult`) is modelled separately. -/
def declareWinner (fullTracking stealAccepted : Bool) (players : List Player)
    (d : Duel) : DuelOutcome × Duel × List Player :=
  if d.score1 = d.score2 then
    (.tie, d, players)
  else
    let winNum : Nat := if d.score1 > d.score2 then 1 else 2
    let winnerId := if winNum = 1 then d.player1Id else d.player2Id
    let loserId := if winNum = 1 then d.player2Id else d.player1Id
    let d' := { d with winnerId := winnerId }
    match findPlayer players winnerId, findPlayer players loserId with
    | some w, some l =>
      if fullTracking && (w.characterId == "nyra") then
        if stealAccepted then
          let stolen := min 7 l.gold
          let players1 := players.map (fun p =>
            if p.id == l.id then { p with gold := p.gold - stolen } else p)
          let players2 := players1.map (fun p =>
            if p.id == w.id then { p with gold := p.gold + stolen } else p)
          (.declared winnerId, d', players2)
        else (.declared winnerId, d', players)
      else (.declared winnerId, d', players)
    | _, _ => (.declared winnerId, d', players)

-- ─── Tournament bracket builders ──────────────────────────

/-- 3 players: SF1 = seed1 vs seed2; Final = seed0 vs winner(SF1). -/
def buildBracket3p (s : List Nat) : List Round :=
  [ { name := "Semifinal", matchList :=
      [ { id := "sf1", player1Id := s[1]?, player2Id := s[2]?,
          advantagePlayerId := s[1]?, winnerId := none,
          feedsFrom1 := none, feedsFrom2 := none } ] },
    { name := "Final", matchList :=
      [ { id := "final", player1Id := s[0]?, player2Id := none,
          advantagePlayerId := s[0]?, winnerId := none,
          feedsFrom1 := none, feedsFrom2 := some ⟨"sf1", 2⟩ } ] } ]

/-- 4 players: SF1 = seed0 vs seed3; SF2 = seed1 vs seed2;
Final = winner(SF1) vs winner(SF2). -/
def buildBracket4p (s : List Nat) : List Round :=
  [ { name := "Semifinal", matchList :=
      [ { id := "sf1", player1Id := s[0]?, player2Id := s[3]?,
          advantagePlayerId := s[0]?, winnerId := none,
          feedsFrom1 := none, feedsFrom2 := none },
        { id := "sf2", player1Id := s[1]?, player2Id := s[2]?,
          advantagePlayerId := s[1]?, winnerId := none,
          feedsFrom1 := none, feedsFrom2 := none } ] },
    { name := "Final", matchList :=
      [ { id := "final", player1Id := none, player2Id := none,
          advantagePlayerId := none, winnerId := none,
          feedsFrom1 := some ⟨"sf1", 1⟩, feedsFrom2 := some ⟨"sf2", 1⟩ } ] } ]

/-- 5 players: QF1 = seed3 vs seed4; SF1 = seed1 vs winner(QF1);
SF2 = seed2 vs winner(QF1); Final = seed0 vs winner(SF1). -/
def buildBracket5p (s : List Nat) : List Round :=
  [ { name := "Cuartos", matchList :=
      [ { id := "qf1", player1Id := s[3]?, player2Id := s[4]?,
          advantagePlayerId := s[3]?, winnerId := none,
          feedsFrom1 := none, feedsFrom2 := none } ] },
    { name := "Semifinal", matchList :=
      [ { id := "sf1", player1Id := s[1]?, player2Id := none,
          advantagePlayerId := s[1]?, winnerId := none,
          feedsFrom1 := none, feedsFrom2 := some ⟨"qf1", 1⟩ },
        { id := "sf2", player1Id := s[2]?, player2Id := none,
          advantagePlayerId := s[2]?, winnerId := none,
          feedsFrom1 := none, feedsFrom2 := some ⟨"qf1", 1⟩ } ] },
    { name := "Final", matchList :=
      [ { id := "final", player1Id := s[0]?, player2Id := none,
          advantagePlayerId := s[0]?, winnerId := none,
          feedsFrom1 := none, feedsFrom2 := some ⟨"sf1", 1⟩ } ] } ]

/-- 6 players: QF1 = seed0 vs seed1; QF2 = seed2 vs seed3; QF3 = seed4 vs
seed5; SF = winner(QF2) vs winner(QF3); Final = winner(QF1) vs winner(SF). -/
def buildBracket6p (s : List Nat) : List Round :=
  [ { name := "Cuartos", matchList :=
      [ { id := "qf1", player1Id := s[0]?, player2Id := s[1]?,
          advantagePlayerId := s[0]?, winnerId := none,
          feedsFrom1 := none, feedsFrom2 := none },
        { id := "qf2", player1Id := s[2]?, player2Id := s[3]?,
          advantagePlayerId := s[2]?, winnerId := none,
          feedsFrom1 := none, feedsFrom2 := none },
        { id := "qf3", player1Id := s[4]?, player2Id := s[5]?,
          advantagePlayerId := s[4]?, winnerId := none,
          feedsFrom1 := none, feedsFrom2 := none } ] },
    { name := "Semifinal", matchList :=
      [ { id := "sf1", player1Id := none, player2Id := none,
          advantagePlayerId := none, winnerId := none,
          feedsFrom1 := some ⟨"qf2", 1⟩, feedsFrom2 := some ⟨"qf3", 1⟩ } ] },
    { name := "Final", matchList :=
      [ { id := "final", player1Id := none, player2Id := none,
          advantagePlayerId := none, winnerId := none,
          feedsFrom1 := some ⟨"qf1", 1⟩, feedsFrom2 := some ⟨"sf1", 1⟩ } ] } ]

-- ─── Tournament seeding ───────────────────────────────────

/-- One assignment `t.seeds[origIdx].seedRank = rank` (out-of-range indices
leave the list unchanged; unreachable when the shuffle permutes `range n`). -/
def setSeedRank (seeds : List Seed) (origIdx rank : Nat) : List Seed :=
  match seeds[origIdx]? with
  | some s => seeds.set origIdx { s with seedRank := some rank }
  | none => seeds

/-- `order.forEach((origIdx, rank) => { t.seeds[origIdx].seedRank = rank + 1 })`. -/
def assignRanks (seeds : List Seed) (order : List Nat) : List Seed :=
  (order.enum).foldl (fun acc p => setSeedRank acc p.2 (p.1 + 1)) seeds

/-- `t.seeds.slice().sort((a, b) => a.seedRank - b.seedRank)`. -/
def sortSeeds (seeds : List Seed) : List Seed :=
  seeds.insertionSort (fun a b => a.seedRank.getD 0 ≤ b.seedRank.getD 0)

/-- `startTournament()`: roll seed ranks by one shuffle of the index range,
sort by rank, then dispatch on the roster size — 3/4/5/6 players build the
corresponding bracket, anything else falls back to the 4-player bracket on
the first four seeds.  The phase becomes `'bracket'`. -/
def startTournament (sh : List Nat → List Nat) (players : List Player)
    (t : Tournament) : Tournament :=
  let order := sh (List.range t.seeds.length)
  let seeds := assignRanks t.seeds order
  let sorted := sortSeeds seeds
  let seedIds := sorted.map (fun s => s.playerId)
  let n := players.length
  let rounds :=
    if n = 3 then buildBracket3p seedIds
    else if n = 4 then buildBracket4p seedIds
    else if n = 5 then buildBracket5p seedIds
    else if n = 6 then buildBracket6p seedIds
    else buildBracket4p (seedIds.take 4)
  { t with seeds := seeds, rounds := rounds, phase := "bracket" }

-- ─── Tournament propagation ───────────────────────────────

/-- `findMatch(matchId)`: first match with the given id, scanning rounds in
order. -/
def findMatch (matchId : String) : List Round → Option Match
  | [] => none
  | r :: rs =>
    match r.matchList.find? (fun m => m.id == matchId) with
    | some m => some m
    | none => findMatch matchId rs

/-- Set the winner on the first match with the given id in a match list;
the boolean reports whether it was found. -/
def setWinnerMatches (matchId : String) (winnerId : Nat) :
    List Match → List Match × Bool
  | [] => ([], false)
  | m :: ms =>
    if m.id == matchId then ({ m with winnerId := some winnerId } :: ms, true)
    else
      let (ms', found) := setWinnerMatches matchId winnerId ms
      (m :: ms', found)

/-- Set the winner on the first match with the given id across the rounds
(the in-place mutation of the object returned by `findMatch`). -/
def setWinnerRounds (matchId : String) (winnerId : Nat) :
    List Round → List Round
  | [] => []
  | r :: rs =>
    let (ms, found) := setWinnerMatches matchId winnerId r.matchList
    if found then { r with matchList := ms } :: rs
    else { r with matchList := ms } :: setWinnerRounds matchId winnerId rs

/-- The per-match body of `propagateWinner`: for each of the two slots, if
its feed link points at `matchId`, write the winner into that slot. -/
def propagateMatch (matchId : String) (winnerId : Nat) (m : Match) : Match :=
  let m1 := match m.feedsFrom1 with
    | some f => if f.matchId == matchId then { m with player1Id := some winnerId }
                else m
    | none => m
  match m1.feedsFrom2 with
  | some f => if f.matchId == matchId then { m1 with player2Id := some winnerId }
              else m1
  | none => m1

/-- `propagateWinner(matchId, winnerId)`: scan every match of every round. -/
def propagateWinner (matchId : String) (winnerId : Nat)
    (rounds : List Round) : List Round :=
  rounds.map (fun r => { r with matchList := r.matchList.map (propagateMatch matchId winnerId) })

/-- `recordMatchResult(matchId, winnerId)`: record the winner on the match;
if it is the Final, set the champion and the `'champion'` phase and stop;
otherwise propagate the winner into every dependent slot. -/
def recordMatchResult (t : Tournament) (matchId : String) (winnerId : Nat) :
    Tournament :=
  let rounds := setWinnerRounds matchId winnerId t.rounds
  if matchId == "final" then
    { t with rounds := rounds, championId := some winnerId, phase := "champion" }
  else
    { t with rounds := propagateWinner matchId winnerId rounds }

-- ─── Concrete instances used by witnesses and counterexamples ───

/-- The tournament state right after `startTournament` built the 4-player
bracket from the sorted seeds. -/
def fourPTournament (s0 s1 s2 s3 : Nat) : Tournament :=
  { phase := "bracket", seeds := [], rounds := buildBracket4p [s0, s1, s2, s3],
    championId := none }

/-- A blank pre-game player record with the given id. -/
def mkPlayer (i : Nat) : Player :=
  { id := i, name := "", characterId := "", gold := 0, mana := 4, maxMana := 4,
    equipment := [] }

/-- A concrete failed combat: the monster kept 2 HP. -/
def failedCombat : MonsterCombat :=
  { monsterId := 1, maxHP := 5, currentHP := 2, isLegendary := false }

/-- A concrete mid-session game state with the monster not yet resolved. -/
def midGame : Game :=
  { eventDeck := [], eventIndex := 0, currentDay := 3, timeOfDay := .day,
    monsterDeck := [1, 2], monsterDeckIndex := 0, monsterDefeated := false,
    pendingNotifications := [] }

-- ─── Helper lemmas ────────────────────────────────────────

lemma isNormalDayCard_iff (c : EventEntry) :
    isNormalDayCard c = true ↔ c = normalDayCard := by
  cases c with
  | mk t e =>
    simp only [isNormalDayCard, normalDayCard, Bool.and_eq_true, beq_iff_eq,
      EventEntry.mk.injEq]

lemma expandEvents_length (kind : TimeOfDay) (evs : List EventSpec) :
    (expandEvents kind evs).length = sumCounts evs := by
  induction evs with
  | nil => rfl
  | cons ev evs ih =>
    simp only [expandEvents, List.length_append, List.length_replicate, ih,
      sumCounts, List.map_cons, List.sum_cons]

lemma buildCombinedEventDeck_eq_none {sh : List EventEntry → List EventEntry}
    {de ne : List EventSpec}
    (h : (sh (eventDeckBase de ne)).findIdx? isNormalDayCard = none) :
    buildCombinedEventDeck sh de ne = normalDayCard :: sh (eventDeckBase de ne) := by
  simp only [buildCombinedEventDeck, h]

lemma buildCombinedEventDeck_eq_pos {sh : List EventEntry → List EventEntry}
    {de ne : List EventSpec} {i : Nat}
    (h : (sh (eventDeckBase de ne)).findIdx? isNormalDayCard = some i) (hi : 0 < i) :
    buildCombinedEventDeck sh de ne
      = (sh (eventDeckBase de ne)).getD i normalDayCard
          :: (sh (eventDeckBase de ne)).eraseIdx i := by
  simp only [buildCombinedEventDeck, h, if_pos hi]

lemma buildCombinedEventDeck_eq_zero {sh : List EventEntry → List EventEntry}
    {de ne : List EventSpec}
    (h : (sh (eventDeckBase de ne)).findIdx? isNormalDayCard = some 0) :
    buildCombinedEventDeck sh de ne = sh (eventDeckBase de ne) := by
  simp only [buildCombinedEventDeck, h]
  rw [if_neg (Nat.lt_irrefl 0)]

lemma eventDeckBase_length (de ne : List EventSpec) :
    (eventDeckBase de ne).length = sumCounts de + sumCounts ne := by
  simp [eventDeckBase, List.length_append, expandEvents_length]

-- ─── C5 ───────────────────────────────────────────────────

/-- C5: `computeEffectiveHP` — the special sentinel yields the non-numeric
marker regardless of player count and legendary flag; a `"k×"` spec yields
k × playerCount; a literal spec yields the literal; the legendary flag
doubles the base result after the base computation; in particular
`"3x"`/4 players ↦ 12 (24 legendary) and 10/5 players legendary ↦ 20. -/
theorem computeHP_correct :
    (∀ pc leg, computeHP .special pc leg = none) ∧
    (∀ pc leg, computeHPDisplay .special pc leg = Sum.inl "Especial") ∧
    (∀ k pc, computeHP (.mult k) pc false = some (k * pc)) ∧
    (∀ k pc, computeHP (.mult k) pc true = some (k * pc * 2)) ∧
    (∀ n pc, computeHP (.lit n) pc false = some n) ∧
    (∀ n pc, computeHP (.lit n) pc true = some (n * 2)) ∧
    computeHP (.mult 3) 4 false = some 12 ∧
    computeHP (.mult 3) 4 true = some 24 ∧
    computeHP (.lit 10) 5 true = some 20 :=
  ⟨fun _ _ => rfl, fun _ _ => rfl, fun _ _ => rfl, fun _ _ => rfl,
   fun _ _ => rfl, fun _ _ => rfl, rfl, rfl, rfl⟩

-- ─── C3 ───────────────────────────────────────────────────

/-- C3: `buildCombinedEventDeck` — for every catalog pair and every shuffle
outcome: the first entry is the day-kind Normal Day card; the length is the
sum of all repetition counts, plus one exactly when no Normal Day instance
was present after the shuffle; and when one was present, the rest of the
result is the shuffled deck with that single card removed, order preserved
(a sublist of the shuffled deck, one element shorter). -/
theorem buildCombinedEventDeck_spec (sh : List EventEntry → List EventEntry)
    (de ne : List EventSpec) (hsh : ∀ l, List.Perm (sh l) l) :
    (buildCombinedEventDeck sh de ne).head? = some normalDayCard
    ∧ (normalDayCard ∈ sh (eventDeckBase de ne) →
        (buildCombinedEventDeck sh de ne).length = sumCounts de + sumCounts ne)
    ∧ (normalDayCard ∉ sh (eventDeckBase de ne) →
        (buildCombinedEventDeck sh de ne).length = sumCounts de + sumCounts ne + 1)
    ∧ (normalDayCard ∈ sh (eventDeckBase de ne) →
        (buildCombinedEventDeck sh de ne).tail.Sublist (sh (eventDeckBase de ne))
        ∧ (buildCombinedEventDeck sh de ne).tail.length + 1
            = (sh (eventDeckBase de ne)).length)
    ∧ (normalDayCard ∉ sh (eventDeckBase de ne) →
        (buildCombinedEventDeck sh de ne).tail = sh (eventDeckBase de ne)) := by
  have hlen : (sh (eventDeckBase de ne)).length = sumCounts de + sumCounts ne := by
    rw [(hsh (eventDeckBase de ne)).length_eq, eventDeckBase_length]
  cases hfind : (sh (eventDeckBase de ne)).findIdx? isNormalDayCard with
  | none =>
    have hnotmem : normalDayCard ∉ sh (eventDeckBase de ne) := by
      intro hmem
      have := List.findIdx?_eq_none_iff.mp hfind normalDayCard hmem
      rw [(isNormalDayCard_iff normalDayCard).mpr rfl] at this
      exact Bool.false_ne_true this.symm
    rw [buildCombinedEventDeck_eq_none hfind]
    refine ⟨rfl, fun h => absurd h hnotmem, fun _ => ?_, fun h => absurd h hnotmem,
      fun _ => rfl⟩
    simp [List.length_cons, hlen]
  | some i =>
    obtain ⟨hilt, hpi, -⟩ := List.findIdx?_eq_some_iff_getElem.mp hfind
    have hci : (sh (eventDeckBase de ne))[i] = normalDayCard :=
      (isNormalDayCard_iff _).mp hpi
    have hmem : normalDayCard ∈ sh (eventDeckBase de ne) :=
      hci ▸ List.getElem_mem hilt
    by_cases hi : 0 < i
    · rw [buildCombinedEventDeck_eq_pos hfind hi]
      have hgd : (sh (eventDeckBase de ne)).getD i normalDayCard = normalDayCard := by
        rw [List.getD_eq_getElem?_getD, List.getElem?_eq_getElem hilt]
        exact hci
      refine ⟨by rw [hgd]; rfl, fun _ => ?_, fun h => absurd hmem h, fun _ => ?_,
        fun h => absurd hmem h⟩
      · have := List.length_eraseIdx_of_lt hilt
        simp only [List.length_cons, this]
        omega
      · constructor
        · simpa using List.eraseIdx_sublist (sh (eventDeckBase de ne)) i
        · have := List.length_eraseIdx_of_lt hilt
          simp only [List.tail_cons, this]
          omega
    · have hi0 : i = 0 := Nat.eq_zero_of_not_pos hi
      subst hi0
      rw [buildCombinedEventDeck_eq_zero hfind]
      refine ⟨?_, fun _ => hlen, fun h => absurd hmem h, fun _ => ?_,
        fun h => absurd hmem h⟩
      · rw [List.head?_eq_getElem?, List.getElem?_eq_getElem hilt, hci]
      · exact ⟨List.tail_sublist _, by rw [List.length_tail]; omega⟩

/-- C3 witness: a concrete catalog pair with the identity shuffle, exercising
the relocation path. -/
theorem buildCombinedEventDeck_spec_witness :
    (buildCombinedEventDeck id [⟨2, "X", 1⟩, ⟨1, "Día Normal", 1⟩] [⟨5, "N", 2⟩]).head?
      = some normalDayCard
    ∧ (buildCombinedEventDeck id [⟨2, "X", 1⟩, ⟨1, "Día Normal", 1⟩] [⟨5, "N", 2⟩]).length
      = sumCounts [⟨2, "X", 1⟩, ⟨1, "Día Normal", 1⟩] + sumCounts [⟨5, "N", 2⟩] := by
  have h := buildCombinedEventDeck_spec id [⟨2, "X", 1⟩, ⟨1, "Día Normal", 1⟩]
    [⟨5, "N", 2⟩] (fun l => List.Perm.refl l)
  exact ⟨h.1, h.2.1 (by decide)⟩

-- ─── C4 ───────────────────────────────────────────────────

/-- C4: `buildMonsterDeck` — for every catalog with at least 3 monsters per
tier (and catalog ids unique, the data-integrity precondition of a lookup
table) and every shuffle outcome: the deck is the concatenation of the four
tier groups in the fixed weakest-to-strongest order, has length exactly 12,
and each group has exactly 3 entries, all drawn from that tier's catalog
ids, with no duplicates. -/
theorem buildMonsterDeck_spec (sh : List Nat → List Nat)
    (monsters : List MonsterSpec) (hsh : ∀ l, List.Perm (sh l) l)
    (h3 : ∀ t ∈ tierNames, 3 ≤ (tierIds monsters t).length)
    (hnd : (monsters.map (fun m => m.id)).Nodup) :
    buildMonsterDeck sh monsters
      = (sh (tierIds monsters "duende")).take 3 ++ (sh (tierIds monsters "ogro")).take 3
        ++ (sh (tierIds monsters "golem")).take 3 ++ (sh (tierIds monsters "dragon")).take 3
    ∧ (buildMonsterDeck sh monsters).length = 12
    ∧ (∀ t ∈ tierNames,
        ((sh (tierIds monsters t)).take 3).length = 3
        ∧ (∀ x ∈ (sh (tierIds monsters t)).take 3, x ∈ tierIds monsters t)
        ∧ ((sh (tierIds monsters t)).take 3).Nodup) := by
  have hgroup : ∀ t ∈ tierNames,
      ((sh (tierIds monsters t)).take 3).length = 3
      ∧ (∀ x ∈ (sh (tierIds monsters t)).take 3, x ∈ tierIds monsters t)
      ∧ ((sh (tierIds monsters t)).take 3).Nodup := by
    intro t ht
    refine ⟨?_, ?_, ?_⟩
    · rw [List.length_take, (hsh (tierIds monsters t)).length_eq]
      exact Nat.min_eq_left (h3 t ht)
    · intro x hx
      exact ((hsh (tierIds monsters t)).mem_iff).mp (List.take_subset 3 _ hx)
    · have hids : (tierIds monsters t).Nodup := by
        have hsub : (monsters.filter (fun m => m.tier == t)).Sublist monsters :=
          List.filter_sublist monsters
        have : ((monsters.filter (fun m => m.tier == t)).map (fun m => m.id)).Sublist
            (monsters.map (fun m => m.id)) := hsub.map _
        exact hnd.sublist this
      have hshd : (sh (tierIds monsters t)).Nodup :=
        ((hsh (tierIds monsters t)).nodup_iff).mpr hids
      exact hshd.sublist (List.take_sublist 3 _)
  have heq : buildMonsterDeck sh monsters
      = (sh (tierIds monsters "duende")).take 3 ++ (sh (tierIds monsters "ogro")).take 3
        ++ (sh (tierIds monsters "golem")).take 3
        ++ (sh (tierIds monsters "dragon")).take 3 := by
    simp [buildMonsterDeck, tierNames, List.append_assoc]
  refine ⟨heq, ?_, hgroup⟩
  rw [heq]
  have l1 := (hgroup "duende" (by simp [tierNames])).1
  have l2 := (hgroup "ogro" (by simp [tierNames])).1
  have l3 := (hgroup "golem" (by simp [tierNames])).1
  have l4 := (hgroup "dragon" (by simp [tierNames])).1
  simp [List.length_append, l1, l2, l3, l4]

/-- C4 witness: a concrete 12-monster catalog (3 per tier) with the identity
shuffle. -/
theorem buildMonsterDeck_spec_witness :
    (buildMonsterDeck id
      [⟨1, "duende", .lit 1⟩, ⟨2, "duende", .lit 1⟩, ⟨3, "duende", .lit 1⟩,
       ⟨4, "ogro", .lit 1⟩, ⟨5, "ogro", .lit 1⟩, ⟨6, "ogro", .lit 1⟩,
       ⟨7, "golem", .lit 1⟩, ⟨8, "golem", .lit 1⟩, ⟨9, "golem", .lit 1⟩,
       ⟨10, "dragon", .lit 1⟩, ⟨11, "dragon", .lit 1⟩, ⟨12, "dragon", .lit 1⟩]).length
      = 12 := by
  have h := buildMonsterDeck_spec id
    [⟨1, "duende", .lit 1⟩, ⟨2, "duende", .lit 1⟩, ⟨3, "duende", .lit 1⟩,
     ⟨4, "ogro", .lit 1⟩, ⟨5, "ogro", .lit 1⟩, ⟨6, "ogro", .lit 1⟩,
     ⟨7, "golem", .lit 1⟩, ⟨8, "golem", .lit 1⟩, ⟨9, "golem", .lit 1⟩,
     ⟨10, "dragon", .lit 1⟩, ⟨11, "dragon", .lit 1⟩, ⟨12, "dragon", .lit 1⟩]
    (fun l => List.Perm.refl l) (by decide) (by decide)
  exact h.2.1

-- ─── C2 ───────────────────────────────────────────────────

/-- C2: 4-player tournament propagation — after `recordResult(sf1, w1)` and
`recordResult(sf2, w2)` the Final's two slots hold exactly `w1` and `w2`;
`recordResult(final, w)` then sets the champion to `w`, moves the phase to
`'champion'`, and leaves every match's competitor slots untouched (no further
propagation), with the Final's winner recorded. -/
theorem tournament4p_propagation (s0 s1 s2 s3 w1 w2 w : Nat) :
    (findMatch "final"
        (recordMatchResult (recordMatchResult (fourPTournament s0 s1 s2 s3)
          "sf1" w1) "sf2" w2).rounds).map (fun m => (m.player1Id, m.player2Id))
      = some (some w1, some w2)
    ∧ (recordMatchResult (recordMatchResult (recordMatchResult
        (fourPTournament s0 s1 s2 s3) "sf1" w1) "sf2" w2) "final" w).championId
      = some w
    ∧ (recordMatchResult (recordMatchResult (recordMatchResult
        (fourPTournament s0 s1 s2 s3) "sf1" w1) "sf2" w2) "final" w).phase
      = "champion"
    ∧ (recordMatchResult (recordMatchResult (recordMatchResult
        (fourPTournament s0 s1 s2 s3) "sf1" w1) "sf2" w2) "final" w).rounds.map
          (fun r => r.matchList.map (fun m => (m.player1Id, m.player2Id)))
      = (recordMatchResult (recordMatchResult (fourPTournament s0 s1 s2 s3)
          "sf1" w1) "sf2" w2).rounds.map
          (fun r => r.matchList.map (fun m => (m.player1Id, m.player2Id)))
    ∧ (findMatch "final"
        (recordMatchResult (recordMatchResult (recordMatchResult
          (fourPTournament s0 s1 s2 s3) "sf1" w1) "sf2" w2) "final" w).rounds).map
          (fun m => m.winnerId)
      = some (some w) :=
  ⟨rfl, rfl, rfl, rfl, rfl⟩

-- ─── C8 ───────────────────────────────────────────────────

/-- C8 counterexample: with a 7-player roster (outside 3–6), `startTournament`
does not fail — it silently builds the 4-player bracket from the first four
seeds and proceeds to the `'bracket'` phase. -/
theorem startTournament_coerces_seven :
    (startTournament id ((List.range 7).map mkPlayer)
      { phase := "pre", seeds := (List.range 7).map (fun i => ⟨i, none⟩),
        rounds := [], championId := none }).phase = "bracket"
    ∧ (startTournament id ((List.range 7).map mkPlayer)
        { phase := "pre", seeds := (List.range 7).map (fun i => ⟨i, none⟩),
          rounds := [], championId := none }).rounds
      = buildBracket4p [0, 1, 2, 3] := by
  constructor
  · rfl
  · decide

/-- C8 amended: for every roster whose size is below 3 or above 6,
`startTournament` does not fail fast — it silently coerces, building the
4-player bracket topology from the first four sorted seeds, and proceeds to
the `'bracket'` phase. -/
theorem startTournament_fallback (sh : List Nat → List Nat)
    (players : List Player) (t : Tournament)
    (h : players.length < 3 ∨ players.length > 6) :
    startTournament sh players t =
      { t with
        seeds := assignRanks t.seeds (sh (List.range t.seeds.length))
        rounds := buildBracket4p
          (((sortSeeds (assignRanks t.seeds (sh (List.range t.seeds.length)))).map
            (fun s => s.playerId)).take 4)
        phase := "bracket" } := by
  have h3 : players.length ≠ 3 := by omega
  have h4 : players.length ≠ 4 := by omega
  have h5 : players.length ≠ 5 := by omega
  have h6 : players.length ≠ 6 := by omega
  simp only [startTournament, if_neg h3, if_neg h4, if_neg h5, if_neg h6]

/-- C8 amended witness: the 7-player instance, via the amended theorem. -/
theorem startTournament_fallback_witness :
    (startTournament id ((List.range 7).map mkPlayer)
      { phase := "pre", seeds := (List.range 7).map (fun i => ⟨i, none⟩),
        rounds := [], championId := none }).rounds
      = buildBracket4p
          (((sortSeeds (assignRanks ((List.range 7).map (fun i => ⟨i, none⟩))
            (id (List.range ((List.range 7).map
              (fun i => (⟨i, none⟩ : Seed))).length)))).map
            (fun s => s.playerId)).take 4) := by
  rw [startTournament_fallback id ((List.range 7).map mkPlayer)
    { phase := "pre", seeds := (List.range 7).map (fun i => ⟨i, none⟩),
      rounds := [], championId := none } (by decide)]

-- ─── C9 ───────────────────────────────────────────────────

/-- C9: `declareDuelWinner` — equal scores yield the tie outcome with no
winner recorded and no mutation of any competitor's resources (the duel and
the player list are returned unchanged); otherwise the competitor with the
higher score is declared the winner. -/
theorem declareWinner_spec (ft sa : Bool) (players : List Player) (d : Duel) :
    (d.score1 = d.score2 → declareWinner ft sa players d = (.tie, d, players))
    ∧ (d.score1 > d.score2 →
        (declareWinner ft sa players d).1 = .declared d.player1Id
        ∧ (declareWinner ft sa players d).2.1.winnerId = d.player1Id)
    ∧ (d.score2 > d.score1 →
        (declareWinner ft sa players d).1 = .declared d.player2Id
        ∧ (declareWinner ft sa players d).2.1.winnerId = d.player2Id) := by
  refine ⟨fun h => ?_, fun h => ?_, fun h => ?_⟩
  · simp [declareWinner, h]
  · have hne : ¬ d.score1 = d.score2 := by omega
    simp only [declareWinner, if_neg hne, if_pos h, if_pos rfl]
    constructor <;> (split <;> try rfl) <;> (split <;> try rfl) <;> split <;> rfl
  · have hne : ¬ d.score1 = d.score2 := by omega
    have hgt : ¬ d.score1 > d.score2 := by omega
    simp only [declareWinner, if_neg hne, if_neg hgt,
      if_neg (by decide : ¬ (2 : Nat) = 1)]
    constructor <;> (split <;> try rfl) <;> (split <;> try rfl) <;> split <;> rfl

/-- C9 witness: a concrete tied duel (unchanged state) and a concrete decided
duel (higher score wins). -/
theorem declareWinner_spec_witness :
    declareWinner false false []
      { player1Id := some 0, player2Id := some 1, score1 := 5, score2 := 5,
        winnerId := none, matchId := none }
      = (.tie,
         { player1Id := some 0, player2Id := some 1, score1 := 5, score2 := 5,
           winnerId := none, matchId := none }, [])
    ∧ (declareWinner false false []
        { player1Id := some 0, player2Id := some 1, score1 := 5, score2 := 3,
          winnerId := none, matchId := none }).1 = .declared (some 0) :=
  ⟨(declareWinner_spec false false []
      { player1Id := some 0, player2Id := some 1, score1 := 5, score2 := 5,
        winnerId := none, matchId := none }).1 rfl,
   ((declareWinner_spec false false []
      { player1Id := some 0, player2Id := some 1, score1 := 5, score2 := 3,
        winnerId := none, matchId := none }).2.1 (by decide)).1⟩

-- ─── C7 ───────────────────────────────────────────────────

/-- C7 counterexample: on a failed encounter (`currentHP > 0`) the
monster-resolved flag is NOT set — `endMonsterCombat` leaves it false,
contradicting the claim that failure marks the encounter resolved. -/
theorem endMonsterCombat_failure_flag_not_set :
    ((endMonsterCombat [⟨1, "duende", .lit 5⟩] failedCombat midGame []).1).monsterDefeated
      = false := by
  decide

/-- C7 amended: whenever `endMonsterCombat` records a failure (monster not
defeated), the whole game state and all players are left entirely unchanged —
the monster-resolved flag is not set, the monster-deck cursor does not move,
and no tier-completion reward or mana/gold mutation occurs (only a modal is
shown). -/
theorem endMonsterCombat_failure_spec (monsters : List MonsterSpec)
    (mc : MonsterCombat) (g : Game) (players : List Player)
    (h : 0 < mc.currentHP) :
    endMonsterCombat monsters mc g players = (g, players) := by
  unfold endMonsterCombat
  rw [if_neg (by omega)]

/-- C7 amended witness: the concrete failed combat, via the amended theorem. -/
theorem endMonsterCombat_failure_spec_witness :
    endMonsterCombat [⟨1, "duende", .lit 5⟩] failedCombat midGame [] = (midGame, []) :=
  endMonsterCombat_failure_spec [⟨1, "duende", .lit 5⟩] failedCombat midGame []
    (by decide)

-- ─── C10 ──────────────────────────────────────────────────

lemma buildCombinedEventDeck_head (sh : List EventEntry → List EventEntry)
    (de ne : List EventSpec) :
    (buildCombinedEventDeck sh de ne).head? = some normalDayCard := by
  cases hfind : (sh (eventDeckBase de ne)).findIdx? isNormalDayCard with
  | none => rw [buildCombinedEventDeck_eq_none hfind]; rfl
  | some i =>
    obtain ⟨hilt, hpi, -⟩ := List.findIdx?_eq_some_iff_getElem.mp hfind
    have hci : (sh (eventDeckBase de ne))[i] = normalDayCard :=
      (isNormalDayCard_iff _).mp hpi
    by_cases hi : 0 < i
    · rw [buildCombinedEventDeck_eq_pos hfind hi]
      have hgd : (sh (eventDeckBase de ne)).getD i normalDayCard = normalDayCard := by
        rw [List.getD_eq_getElem?_getD, List.getElem?_eq_getElem hilt]
        exact hci
      rw [hgd]
      rfl
    · have hi0 : i = 0 := Nat.eq_zero_of_not_pos hi
      subst hi0
      rw [buildCombinedEventDeck_eq_zero hfind]
      rw [List.head?_eq_getElem?, List.getElem?_eq_getElem hilt, hci]

lemma startGame_game (shE : List EventEntry → List EventEntry)
    (shM : List Nat → List Nat) (chars : List CharSpec)
    (de ne : List EventSpec) (monsters : List MonsterSpec)
    (players : List Player) :
    (startGame shE shM chars de ne monsters players).2 =
      { eventDeck := buildCombinedEventDeck shE de ne
        eventIndex := 0
        currentDay := 1
        timeOfDay := TimeOfDay.day
        monsterDeck := buildMonsterDeck shM monsters
        monsterDeckIndex := 0
        monsterDefeated := false
        pendingNotifications := [] } := by
  have hhead := buildCombinedEventDeck_head shE de ne
  simp only [startGame, hhead]
  rfl

lemma mem_initPlayers (chars : List CharSpec) (i : Nat) (ps : List Player) :
    ∀ q ∈ initPlayers chars i ps,
      q.gold = 0 ∧ q.equipment = []
      ∧ ∃ p, p ∈ ps ∧ q.characterId = p.characterId
          ∧ q.mana = classMaxMana chars p.characterId
          ∧ q.maxMana = classMaxMana chars p.characterId := by
  induction ps generalizing i with
  | nil => intro q hq; simp [initPlayers] at hq
  | cons p ps ih =>
    intro q hq
    rw [initPlayers, List.mem_cons] at hq
    rcases hq with rfl | hq
    · exact ⟨rfl, rfl, p, List.mem_cons_self p ps, rfl, rfl, rfl⟩
    · obtain ⟨hg, he, p', hp', rest⟩ := ih (i + 1) q hq
      exact ⟨hg, he, p', List.mem_cons_of_mem p hp', rest⟩

/-- C10: `startSession` — for every roster whose character classes all
resolve in the catalog and every shuffle outcome, the produced state has day
counter 1 and time-of-day `day` (the deck builder forces a day-kind first
card), event cursor 0, monster-deck cursor 0, monster-resolved flag false,
an empty notification queue, and every player with gold 0 and current mana
equal to their class's maximum mana. -/
theorem startGame_spec (shE : List EventEntry → List EventEntry)
    (shM : List Nat → List Nat) (chars : List CharSpec)
    (de ne : List EventSpec) (monsters : List MonsterSpec)
    (players : List Player)
    (hch : ∀ p ∈ players, (getChar chars p.characterId).isSome = true) :
    (startGame shE shM chars de ne monsters players).2.currentDay = 1
    ∧ (startGame shE shM chars de ne monsters players).2.timeOfDay = TimeOfDay.day
    ∧ (startGame shE shM chars de ne monsters players).2.eventIndex = 0
    ∧ (startGame shE shM chars de ne monsters players).2.monsterDeckIndex = 0
    ∧ (startGame shE shM chars de ne monsters players).2.monsterDefeated = false
    ∧ (startGame shE shM chars de ne monsters players).2.pendingNotifications = []
    ∧ ∀ q ∈ (startGame shE shM chars de ne monsters players).1,
        q.gold = 0
        ∧ ∃ c, getChar chars q.characterId = some c
            ∧ q.mana = c.maxMana ∧ q.maxMana = c.maxMana := by
  have hg := startGame_game shE shM chars de ne monsters players
  refine ⟨by rw [hg], by rw [hg], by rw [hg], by rw [hg], by rw [hg], by rw [hg], ?_⟩
  intro q hq
  have hq' : q ∈ initPlayers chars 0 players := hq
  obtain ⟨hgold, -, p, hp, hcid, hmana, hmax⟩ := mem_initPlayers chars 0 players q hq'
  obtain ⟨c, hc⟩ := Option.isSome_iff_exists.mp (hch p hp)
  refine ⟨hgold, c, ?_, ?_, ?_⟩
  · rw [hcid]; exact hc
  · rw [hmana, classMaxMana, hc]
  · rw [hmax, classMaxMana, hc]

/-- C10 witness: a concrete one-player roster with a resolvable class and
identity shuffles. -/
theorem startGame_spec_witness :
    (startGame id id [⟨"azra", 5⟩] [] [] [] [{ mkPlayer 0 with characterId := "azra" }]).2.currentDay = 1
    ∧ (startGame id id [⟨"azra", 5⟩] [] [] [] [{ mkPlayer 0 with characterId := "azra" }]).2.timeOfDay
      = TimeOfDay.day :=
  ⟨(startGame_spec id id [⟨"azra", 5⟩] [] [] []
     [{ mkPlayer 0 with characterId := "azra" }] (by decide)).1,
   (startGame_spec id id [⟨"azra", 5⟩] [] [] []
     [{ mkPlayer 0 with characterId := "azra" }] (by decide)).2.1⟩

-- ─── C1 ───────────────────────────────────────────────────

lemma dungeonClosedStep_fields (de ne : List EventSpec) (g : Game) :
    (dungeonClosedStep de ne g).eventDeck = g.eventDeck
    ∧ (dungeonClosedStep de ne g).eventIndex = g.eventIndex
    ∧ (dungeonClosedStep de ne g).currentDay = g.currentDay
    ∧ (dungeonClosedStep de ne g).timeOfDay = g.timeOfDay := by
  unfold dungeonClosedStep
  split
  · split <;> exact ⟨rfl, rfl, rfl, rfl⟩
  · exact ⟨rfl, rfl, rfl, rfl⟩

lemma advanceTime_eq (de ne : List EventSpec) (players : List Player) (g : Game) :
    advanceTime de ne players g =
      if (dungeonClosedStep de ne g).currentDay ≥ 12
          ∧ (dungeonClosedStep de ne g).timeOfDay = TimeOfDay.day then
        .toTournament (dungeonClosedStep de ne g) (freshTournament players)
      else if g.eventIndex + 1 ≥ g.eventDeck.length then
        .toTournament { dungeonClosedStep de ne g with eventIndex := g.eventIndex + 1 }
          (freshTournament players)
      else .next (advStep de ne g) := by
  obtain ⟨hdeck, hidx, -, -⟩ := dungeonClosedStep_fields de ne g
  simp only [advanceTime, advStep]
  by_cases h1 : (dungeonClosedStep de ne g).currentDay ≥ 12
      ∧ (dungeonClosedStep de ne g).timeOfDay = TimeOfDay.day
  · rw [if_pos h1, if_pos h1]
  · rw [if_neg h1, if_neg h1]
    by_cases h2 : g.eventIndex + 1 ≥ g.eventDeck.length
    · have h2' : (dungeonClosedStep de ne g).eventIndex + 1
          ≥ (dungeonClosedStep de ne g).eventDeck.length := by
        rw [hidx, hdeck]; exact h2
      rw [if_pos h2', if_pos h2, hidx]
    · have h2' : ¬ ((dungeonClosedStep de ne g).eventIndex + 1
          ≥ (dungeonClosedStep de ne g).eventDeck.length) := by
        rw [hidx, hdeck]; exact h2
      rw [if_neg h2', if_neg h2]
      split <;> rfl

lemma advStep_fields (de ne : List EventSpec) (g : Game) :
    (advStep de ne g).eventIndex = g.eventIndex + 1
    ∧ (advStep de ne g).eventDeck = g.eventDeck
    ∧ (advStep de ne g).timeOfDay
        = (g.eventDeck.getD (g.eventIndex + 1) normalDayCard).type
    ∧ ((g.eventDeck.getD (g.eventIndex + 1) normalDayCard).type = TimeOfDay.day →
        (advStep de ne g).currentDay = g.currentDay + 1
        ∧ (advStep de ne g).monsterDefeated = false)
    ∧ ((g.eventDeck.getD (g.eventIndex + 1) normalDayCard).type = TimeOfDay.night →
        (advStep de ne g).currentDay = g.currentDay) := by
  obtain ⟨hdeck, hidx, hday, -⟩ := dungeonClosedStep_fields de ne g
  simp only [advStep, hdeck, hidx]
  cases htype : (g.eventDeck.getD (g.eventIndex + 1) normalDayCard).type with
  | day =>
    rw [if_pos rfl]
    refine ⟨rfl, rfl, rfl, fun _ => ⟨?_, rfl⟩, ?_⟩
    · rw [hday]
    · intro h
      exact absurd h (by decide)
  | night =>
    rw [if_neg (by decide)]
    refine ⟨rfl, rfl, rfl, ?_, fun _ => ?_⟩
    · intro h
      exact absurd h (by decide)
    · rw [hday]

/-- C1: `advanceTick` — if the day counter has reached 12 during a day, the
event cursor is not advanced and the machine hands over to tournament setup
with seeds built from the roster, rank unset; otherwise the cursor advances
by one, also handing over to tournament setup when it passes the end of the
deck; otherwise the time-of-day mirrors the kind of the new cursor entry,
and exactly when that kind is day the day counter is incremented and the
monster-resolved flag cleared. -/
theorem advanceTick_spec (de ne : List EventSpec) (players : List Player)
    (g : Game) :
    ((g.currentDay ≥ 12 ∧ g.timeOfDay = TimeOfDay.day) →
      advanceTime de ne players g
        = .toTournament (dungeonClosedStep de ne g) (freshTournament players)
      ∧ (dungeonClosedStep de ne g).eventIndex = g.eventIndex
      ∧ (freshTournament players).seeds
          = players.map (fun p => { playerId := p.id, seedRank := none })
      ∧ (freshTournament players).phase = "pre")
    ∧ (¬(g.currentDay ≥ 12 ∧ g.timeOfDay = TimeOfDay.day) →
        g.eventIndex + 1 ≥ g.eventDeck.length →
        advanceTime de ne players g
          = .toTournament
              { dungeonClosedStep de ne g with eventIndex := g.eventIndex + 1 }
              (freshTournament players))
    ∧ (¬(g.currentDay ≥ 12 ∧ g.timeOfDay = TimeOfDay.day) →
        g.eventIndex + 1 < g.eventDeck.length →
        advanceTime de ne players g = .next (advStep de ne g)
        ∧ (advStep de ne g).eventIndex = g.eventIndex + 1
        ∧ (advStep de ne g).timeOfDay
            = (g.eventDeck.getD (g.eventIndex + 1) normalDayCard).type
        ∧ (((advStep de ne g).currentDay = g.currentDay + 1
              ∧ (advStep de ne g).monsterDefeated = false)
            ↔ (g.eventDeck.getD (g.eventIndex + 1) normalDayCard).type
                = TimeOfDay.day)
        ∧ ((g.eventDeck.getD (g.eventIndex + 1) normalDayCard).type
              = TimeOfDay.night →
            (advStep de ne g).currentDay = g.currentDay)) := by
  obtain ⟨hdeck, hidx, hday, htime⟩ := dungeonClosedStep_fields de ne g
  obtain ⟨aidx, adeck, atime, aday, anight⟩ := advStep_fields de ne g
  refine ⟨fun h => ?_, fun hn h2 => ?_, fun hn h3 => ?_⟩
  · have h1 : (dungeonClosedStep de ne g).currentDay ≥ 12
        ∧ (dungeonClosedStep de ne g).timeOfDay = TimeOfDay.day := by
      rw [hday, htime]; exact h
    rw [advanceTime_eq, if_pos h1]
    exact ⟨rfl, hidx, rfl, rfl⟩
  · have h1 : ¬ ((dungeonClosedStep de ne g).currentDay ≥ 12
        ∧ (dungeonClosedStep de ne g).timeOfDay = TimeOfDay.day) := by
      rw [hday, htime]; exact hn
    rw [advanceTime_eq, if_neg h1, if_pos h2]
  · have h1 : ¬ ((dungeonClosedStep de ne g).currentDay ≥ 12
        ∧ (dungeonClosedStep de ne g).timeOfDay = TimeOfDay.day) := by
      rw [hday, htime]; exact hn
    have h2 : ¬ (g.eventIndex + 1 ≥ g.eventDeck.length) := by omega
    rw [advanceTime_eq, if_neg h1, if_neg h2]
    refine ⟨rfl, aidx, atime, ?_, anight⟩
    cases htype : (g.eventDeck.getD (g.eventIndex + 1) normalDayCard).type with
    | day =>
      obtain ⟨hc, hm⟩ := aday htype
      exact ⟨fun _ => rfl, fun _ => ⟨hc, hm⟩⟩
    | night =>
      constructor
      · rintro ⟨hc, -⟩
        rw [anight htype] at hc
        exact absurd hc (by omega)
      · intro h
        exact absurd h (by decide)

/-- C1 witness: a concrete 12th-day day state hands over to tournament setup
without moving the event cursor. -/
theorem advanceTick_spec_witness :
    advanceTime [] [] [mkPlayer 0]
      { eventDeck := [⟨TimeOfDay.day, 1⟩], eventIndex := 0, currentDay := 12,
        timeOfDay := TimeOfDay.day, monsterDeck := [], monsterDeckIndex := 0,
        monsterDefeated := false, pendingNotifications := [] }
      = .toTournament
          (dungeonClosedStep [] []
            { eventDeck := [⟨TimeOfDay.day, 1⟩], eventIndex := 0, currentDay := 12,
              timeOfDay := TimeOfDay.day, monsterDeck := [], monsterDeckIndex := 0,
              monsterDefeated := false, pendingNotifications := [] })
          (freshTournament [mkPlayer 0]) :=
  ((advanceTick_spec [] [] [mkPlayer 0]
      { eventDeck := [⟨TimeOfDay.day, 1⟩], eventIndex := 0, currentDay := 12,
        timeOfDay := TimeOfDay.day, monsterDeck := [], monsterDeckIndex := 0,
        monsterDefeated := false, pendingNotifications := [] }).1
    ⟨by decide, rfl⟩).1

-- ─── C6 ───────────────────────────────────────────────────

lemma mem_tierIndices {monsters : List MonsterSpec} {deck : List Nat}
    {tier : String} {j : Nat} :
    j ∈ tierIndices monsters deck tier
      ↔ j < deck.length ∧ monsterAtHasTier monsters deck j tier = true := by
  simp [tierIndices, List.mem_filter, List.mem_range]

lemma le_of_mem_max? {l : List Nat} {m a : Nat} (hm : l.max? = some m)
    (ha : a ∈ l) : a ≤ m := by
  rw [List.max?_eq_some_iff'] at hm
  exact hm.2 a ha

lemma mem_of_max? {l : List Nat} {m : Nat} (hm : l.max? = some m) : m ∈ l := by
  rw [List.max?_eq_some_iff'] at hm
  exact hm.1

lemma checkTierCompletion_grant {monsters : List MonsterSpec}
    {players : List Player} {notifs : List String} {deck : List Nat}
    {currentIdx : Nat} {tier : String} {m : Nat}
    (hm : (tierIndices monsters deck tier).max? = some m) (hlt : m < currentIdx) :
    checkTierCompletion monsters players notifs deck currentIdx tier
      = (players.map rewardPlayer, notifs ++ [tierMsg tier]) := by
  simp only [checkTierCompletion, hm, if_pos hlt]

lemma checkTierCompletion_nogrant {monsters : List MonsterSpec}
    {players : List Player} {notifs : List String} {deck : List Nat}
    {currentIdx : Nat} {tier : String} {m : Nat}
    (hm : (tierIndices monsters deck tier).max? = some m)
    (hge : ¬ m < currentIdx) :
    checkTierCompletion monsters players notifs deck currentIdx tier
      = (players, notifs) := by
  simp only [checkTierCompletion, hm, if_neg hge]

lemma endMonsterCombat_victory_eq {monsters : List MonsterSpec}
    {mc : MonsterCombat} {g : Game} {players : List Player} {mon : MonsterSpec}
    (hdef : mc.currentHP ≤ 0)
    (hmon : getMonster monsters mc.monsterId = some mon) :
    endMonsterCombat monsters mc g players
      = ({ g with monsterDefeated := true
                  monsterDeckIndex := g.monsterDeckIndex + 1
                  pendingNotifications :=
                    (checkTierCompletion monsters players g.pendingNotifications
                      g.monsterDeck (g.monsterDeckIndex + 1) mon.tier).2 },
         (checkTierCompletion monsters players g.pendingNotifications
            g.monsterDeck (g.monsterDeckIndex + 1) mon.tier).1) := by
  simp only [endMonsterCombat, if_pos hdef, hmon]

/-- C6: tier completion on victory — whenever `endMonsterCombat` records a
victory, the monster-resolved flag is set and the monster-deck cursor
advances by one; when the defeated monster sat at the cursor position,
exactly one notification is enqueued and every player gains +1 maxMana and
+1 mana capped at the new maximum if and only if no later deck position
holds a monster of the same tier; and the reward condition pins the defeat
position uniquely, so over a whole session it fires at most once per tier. -/
theorem endMonsterCombat_victory_spec (monsters : List MonsterSpec)
    (mc : MonsterCombat) (g : Game) (players : List Player) (mon : MonsterSpec)
    (hdef : mc.currentHP ≤ 0)
    (hmon : getMonster monsters mc.monsterId = some mon) :
    (endMonsterCombat monsters mc g players).1.monsterDefeated = true
    ∧ (endMonsterCombat monsters mc g players).1.monsterDeckIndex
        = g.monsterDeckIndex + 1
    ∧ (g.monsterDeck.getD g.monsterDeckIndex 0 = mc.monsterId →
        g.monsterDeckIndex < g.monsterDeck.length →
        (isLastOfTier monsters g.monsterDeck g.monsterDeckIndex mon.tier
          ↔ ((endMonsterCombat monsters mc g players).1.pendingNotifications
               = g.pendingNotifications ++ [tierMsg mon.tier]
             ∧ (endMonsterCombat monsters mc g players).2
               = players.map rewardPlayer))
        ∧ (¬ isLastOfTier monsters g.monsterDeck g.monsterDeckIndex mon.tier →
            (endMonsterCombat monsters mc g players).1.pendingNotifications
              = g.pendingNotifications
            ∧ (endMonsterCombat monsters mc g players).2 = players))
    ∧ (∀ i j, grantFires monsters g.monsterDeck mon.tier i →
        grantFires monsters g.monsterDeck mon.tier j → i = j) := by
  rw [endMonsterCombat_victory_eq hdef hmon]
  refine ⟨rfl, rfl, ?_, ?_⟩
  · intro hat hlt
    have hmat : monsterAtHasTier monsters g.monsterDeck g.monsterDeckIndex mon.tier
        = true := by
      unfold monsterAtHasTier
      rw [hat, hmon]
      simp
    have hmemIdx : g.monsterDeckIndex ∈ tierIndices monsters g.monsterDeck mon.tier :=
      mem_tierIndices.mpr ⟨hlt, hmat⟩
    obtain ⟨m, hm⟩ : ∃ m, (tierIndices monsters g.monsterDeck mon.tier).max? = some m := by
      cases hmax : (tierIndices monsters g.monsterDeck mon.tier).max? with
      | some m => exact ⟨m, rfl⟩
      | none =>
        rw [List.max?_eq_none_iff] at hmax
        rw [hmax] at hmemIdx
        cases hmemIdx
    have hidxle : g.monsterDeckIndex ≤ m := le_of_mem_max? hm hmemIdx
    by_cases hlast : isLastOfTier monsters g.monsterDeck g.monsterDeckIndex mon.tier
    · have hmle : m ≤ g.monsterDeckIndex := by
        obtain ⟨hmlt, hmat'⟩ := mem_tierIndices.mp (mem_of_max? hm)
        by_contra hgt
        push_neg at hgt
        have hfalse := hlast m hmlt hgt
        rw [hmat'] at hfalse
        cases hfalse
      rw [checkTierCompletion_grant hm (by omega)]
      exact ⟨⟨fun _ => ⟨rfl, rfl⟩, fun _ => hlast⟩, fun hn => absurd hlast hn⟩
    · have hnm : ¬ m < g.monsterDeckIndex + 1 := by
        unfold isLastOfTier at hlast
        push_neg at hlast
        obtain ⟨j, hjlt, hij, hjt⟩ := hlast
        have hjt' : monsterAtHasTier monsters g.monsterDeck j mon.tier = true := by
          revert hjt
          cases monsterAtHasTier monsters g.monsterDeck j mon.tier <;> simp
        have hjle : j ≤ m :=
          le_of_mem_max? hm (mem_tierIndices.mpr ⟨hjlt, hjt'⟩)
        omega
      rw [checkTierCompletion_nogrant hm hnm]
      refine ⟨⟨fun hl => absurd hl hlast, ?_⟩, fun _ => ⟨rfl, rfl⟩⟩
      rintro ⟨hnotif, -⟩
      have := congrArg List.length hnotif
      simp at this
  · rintro i j ⟨hi1, hi2, mi, hmi, hmi'⟩ ⟨hj1, hj2, mj, hmj, hmj'⟩
    have hie : mi = mj := by
      rw [hmi] at hmj
      exact Option.some.inj hmj
    have hile : i ≤ mi := le_of_mem_max? hmi (mem_tierIndices.mpr ⟨hi2, hi1⟩)
    have hjle : j ≤ mj := le_of_mem_max? hmj (mem_tierIndices.mpr ⟨hj2, hj1⟩)
    omega

/-- C6 witness: a concrete two-monster deck — defeating the only duende at
position 0 grants the tier reward (one notification, every player +1 maxMana
and +1 mana capped). -/
theorem endMonsterCombat_victory_spec_witness :
    ((endMonsterCombat [⟨1, "duende", .lit 5⟩, ⟨2, "ogro", .lit 5⟩]
        { monsterId := 1, maxHP := 5, currentHP := 0, isLegendary := false }
        midGame [mkPlayer 0]).1.monsterDefeated = true)
    ∧ ((endMonsterCombat [⟨1, "duende", .lit 5⟩, ⟨2, "ogro", .lit 5⟩]
        { monsterId := 1, maxHP := 5, currentHP := 0, isLegendary := false }
        midGame [mkPlayer 0]).1.pendingNotifications
      = midGame.pendingNotifications ++ [tierMsg "duende"]) := by
  have h := endMonsterCombat_victory_spec
    [⟨1, "duende", .lit 5⟩, ⟨2, "ogro", .lit 5⟩]
    { monsterId := 1, maxHP := 5, currentHP := 0, isLegendary := false }
    midGame [mkPlayer 0] ⟨1, "duende", .lit 5⟩ (by decide) (by decide)
  exact ⟨h.1, (((h.2.2.1 (by decide) (by decide)).1.mp (by decide)).1)⟩

end Tornaris
